import Mathlib

/-!
Shallow embedding of the WhisperNet P2P messenger (`whisper.py`,
class `InternetP2PMessenger`) and verification of the frozen claims
about its peer table, crypto session cache, STUN client, presence
handling, pending-message queue and send path.

Python dicts are modelled as insertion-ordered association lists
(`Dict`): updating an existing key replaces its value in place,
a new key is appended at the end, matching CPython dict semantics.
The peer-box cache (`self.peer_boxes`) maps a user id to the pubkey
string the `Box` was built from; key parseability
(`PublicKey(base64.b64decode(s))` succeeding, i.e. valid base64 of a
32-byte key) is abstracted as a parameter `parse : String → Bool`,
and box decryption as `decrypt : String → List Nat → Option Inner`
(`none` models a raised exception / unparseable plaintext).
Wall-clock times (`time.time()`) are supplied as `Nat` arguments.
Network sends and console prints are returned as `Event` values
instead of performing I/O; sends are modelled as always delivered.
-/

namespace WhisperNet

/-- One entry of `self.online_peers`:
`{"username": str, "ip": str, "port": int, "pubkey": str, "last_seen": timestamp}`. -/
structure Peer where
  username : String
  ip : String
  port : Nat
  pubkey : String
  last_seen : Nat
deriving DecidableEq, Repr

/-- An insertion-ordered association list modelling a Python `dict`
keyed by user-id strings. -/
abbrev Dict (α : Type) := List (String × α)

/-- Lookup `d[k]` returning `none` when the key is absent
(Python `d.get(k)` / the `k in d` guard plus `d[k]`). -/
def dictGet {α : Type} : Dict α → String → Option α
  | [], _ => none
  | q :: rest, k => if q.1 = k then some q.2 else dictGet rest k

/-- Python `k in d`. -/
def dictContains {α : Type} : Dict α → String → Bool
  | [], _ => false
  | q :: rest, k => if q.1 = k then true else dictContains rest k

/-- Python `d[k] = v`: replace in place when the key exists, else append,
preserving insertion order. -/
def dictSet {α : Type} : Dict α → String → α → Dict α
  | [], k, v => [(k, v)]
  | q :: rest, k, v => if q.1 = k then (k, v) :: rest else q :: dictSet rest k v

/-- Python `del d[k]` (no-op when absent, matching the guarded deletes
in the source). -/
def dictDel {α : Type} : Dict α → String → Dict α
  | [], _ => []
  | q :: rest, k => if q.1 = k then dictDel rest k else q :: dictDel rest k

/-- One entry of `self.message_queue`: the JSON message dict built in
`send_message` (the constant `"type": "message"` field is omitted). -/
structure PendingMsg where
  message_id : String
  from_user_id : String
  from_username : String
  to_user_id : String
  to_username : String
  content : String
  timestamp : Nat
deriving DecidableEq, Repr

/-- The mutable state of one `InternetP2PMessenger` node that the claims
are about: identity, peer table, peer-box cache, pending-message queue.
`self_pubkey` is the base64 encoding of `self.public_key` published in
presence messages. -/
structure NodeState where
  user_id : String
  username : String
  self_pubkey : String
  online_peers : Dict Peer
  peer_boxes : Dict String
  message_queue : List PendingMsg
deriving DecidableEq, Repr

/-- Node state right after `__init__`: empty peer table, empty box cache,
empty queue. -/
def initState (user_id username self_pubkey : String) : NodeState :=
  { user_id := user_id, username := username, self_pubkey := self_pubkey,
    online_peers := [], peer_boxes := [], message_queue := [] }

/-- A parsed plaintext `presence` datagram
`{type:"presence", user_id, username, status, pubkey}`.  The JSON object
may carry extra fields (for instance an advertised `ip`/`port`); the
handler never reads them, so they are kept here only to state that the
recorded address is the datagram's source address. -/
structure PresenceMsg where
  user_id : String
  username : String
  status : String
  pubkey : String
  payload_ip : Option String := none
  payload_port : Option Nat := none
deriving DecidableEq, Repr

/-- One peer record of a bootstrap reply `{user_id, username, ip, port, pubkey}`. -/
structure BPeer where
  user_id : String
  username : String
  ip : String
  port : Nat
  pubkey : String
deriving DecidableEq, Repr

/-- Observable side effects of the handlers: datagrams sent on
`self.socket` and messages surfaced to the console. -/
inductive Event
  | sendPresence (ip : String) (port : Nat) (user_id username status pubkey : String)
  | sendPong (ip : String) (port : Nat)
  | sendReceipt (ip : String) (port : Nat) (message_id : String)
  | sendCipherMessage (ip : String) (port : Nat) (message_id : String)
  | notifyOnline (username : String)
  | notifyOffline (username : String)
  | notifyMessage (from_username content : String) (timestamp : Nat)
  | notifyDelivered (to_username : String)
deriving DecidableEq, Repr

/-- The insert/update arm of `handle_presence_message` (lines 238-262):
store the peer under the datagram's source address, then `try` to build
the box; only when the pubkey parses is the box stored, the presence
reply sent and the arrival surfaced — a parse failure aborts the `try`
block before the reply. -/
def presence_upsert (parse : String → Bool) (now : Nat) (st : NodeState)
    (msg : PresenceMsg) (srcIp : String) (srcPort : Nat) : NodeState × List Event :=
  let peers1 := dictSet st.online_peers msg.user_id
    { username := msg.username, ip := srcIp, port := srcPort,
      pubkey := msg.pubkey, last_seen := now }
  if parse msg.pubkey then
    ({ st with online_peers := peers1,
               peer_boxes := dictSet st.peer_boxes msg.user_id msg.pubkey },
     [Event.sendPresence srcIp srcPort st.user_id st.username "online" st.self_pubkey,
      Event.notifyOnline msg.username])
  else
    ({ st with online_peers := peers1 }, [])

/-- Handler `handle_presence_message(message, addr)` (lines 227-273).  Own user
id is ignored; `status == "online"` inserts/updates at the source
address or merely refreshes `last_seen` when the address is unchanged;
`status == "offline"` removes the peer and its box. -/
def handle_presence_message (parse : String → Bool) (now : Nat) (st : NodeState)
    (msg : PresenceMsg) (srcIp : String) (srcPort : Nat) : NodeState × List Event :=
  if msg.user_id = st.user_id then (st, [])
  else if msg.status = "online" then
    match dictGet st.online_peers msg.user_id with
    | none => presence_upsert parse now st msg srcIp srcPort
    | some p =>
      if p.ip ≠ srcIp ∨ p.port ≠ srcPort then
        presence_upsert parse now st msg srcIp srcPort
      else
        ({ st with online_peers :=
            dictSet st.online_peers msg.user_id { p with last_seen := now } }, [])
  else if msg.status = "offline" then
    match dictGet st.online_peers msg.user_id with
    | some p =>
        ({ st with online_peers := dictDel st.online_peers msg.user_id,
                   peer_boxes := dictDel st.peer_boxes msg.user_id },
         [Event.notifyOffline p.username])
    | none => (st, [])
  else (st, [])

/-- One iteration of the loop in `update_peer_list` (lines 171-184):
skip self, record the advertised address, `try` to build the box. -/
def update_peer_entry (parse : String → Bool) (now : Nat) (st : NodeState)
    (peer : BPeer) : NodeState :=
  if peer.user_id ≠ st.user_id then
    let rec1 : Peer := { username := peer.username, ip := peer.ip, port := peer.port,
                         pubkey := peer.pubkey, last_seen := now }
    let st1 := { st with online_peers := dictSet st.online_peers peer.user_id rec1 }
    if parse peer.pubkey then
      { st1 with peer_boxes := dictSet st1.peer_boxes peer.user_id peer.pubkey }
    else st1
  else st

/-- Method `update_peer_list(peer_list)` (lines 168-184): ingest a bootstrap
reply, entry by entry. -/
def update_peer_list (parse : String → Bool) (now : Nat) (st : NodeState)
    (l : List BPeer) : NodeState :=
  l.foldl (update_peer_entry parse now) st

/-- Method `cleanup_peers` (lines 376-388): collect every peer not seen for
more than 300 seconds, then delete each from both the box cache and the
peer table. -/
def cleanup_peers (now : Nat) (st : NodeState) : NodeState :=
  let to_remove := (st.online_peers.filter (fun q => 300 < now - q.2.last_seen)).map
    (fun q => q.1)
  to_remove.foldl
    (fun s uid =>
      { s with peer_boxes := dictDel s.peer_boxes uid,
               online_peers := dictDel s.online_peers uid }) st

/-- The sender-identification loop of `handle_encrypted_message`
(lines 278-282): first peer whose recorded ip and port equal the
datagram's source address. -/
def find_by_addr (peers : Dict Peer) (ip : String) (port : Nat) : Option String :=
  (peers.find? (fun q => q.2.ip = ip ∧ q.2.port = port)).map (fun q => q.1)

/-- Decrypted plaintext of a ciphertext datagram as the handler
discriminates it: a `message` dict, a `receipt` dict, or anything else
(unknown `type`, missing keys — no branch taken). -/
inductive Inner
  | message (message_id from_user_id from_username to_user_id to_username content : String)
      (timestamp : Nat)
  | receipt (message_id status : String)
  | other
deriving DecidableEq, Repr

/-- The receipt-resolution loop (lines 305-309): scan the queue in
order, pop the first entry with the matching id, surface the delivery,
and stop. -/
def resolve_receipt : List PendingMsg → String → List PendingMsg × List Event
  | [], _ => ([], [])
  | m :: rest, mid =>
    if m.message_id = mid then (rest, [Event.notifyDelivered m.to_username])
    else
      let r := resolve_receipt rest mid
      (m :: r.1, r.2)

/-- Handler `handle_encrypted_message(encrypted_data, addr)` (lines 275-311).
The sender is identified by source address; an empty or unknown sender
id, a missing box, or a failed decryption drops the datagram.  A
`message` addressed to self is surfaced and acknowledged with a
receipt; a `receipt` resolves the queue; anything else is ignored. -/
def handle_encrypted_message (decrypt : String → List Nat → Option Inner)
    (st : NodeState) (data : List Nat) (srcIp : String) (srcPort : Nat) :
    NodeState × List Event :=
  match find_by_addr st.online_peers srcIp srcPort with
  | none => (st, [])
  | some sid =>
    if sid = "" then (st, [])
    else
      match dictGet st.peer_boxes sid with
      | none => (st, [])
      | some boxkey =>
        match decrypt boxkey data with
        | none => (st, [])
        | some (Inner.message mid _fuid fu tuid _tn content ts) =>
            if tuid = st.user_id then
              (st, [Event.notifyMessage fu content ts,
                    Event.sendReceipt srcIp srcPort mid])
            else (st, [])
        | some (Inner.receipt mid _status) =>
            let r := resolve_receipt st.message_queue mid
            ({ st with message_queue := r.1 }, r.2)
        | some Inner.other => (st, [])

/-- Python `str.lower()`, character by character (ASCII-faithful for the
usernames in scope). -/
def strLower (s : String) : String := String.mk (s.data.map Char.toLower)

/-- The recipient-resolution loop of `send_message` (lines 319-325):
first peer whose username matches case-insensitively. -/
def lookup_by_name (peers : Dict Peer) (name : String) : Option (String × Peer) :=
  peers.find? (fun q => strLower q.2.username = strLower name)

/-- Method `send_message(to_username, content)` (lines 313-351).  `mid` is the
fresh `uuid4` and `now` the `time.time()` timestamp.  Python's
`if not recipient_id` treats the empty string like `None`, so a matched
peer whose user id is `""` is also rejected.  On success the message is
queued, encrypted and sent to the recipient's recorded address. -/
def send_message (now : Nat) (mid : String) (st : NodeState)
    (to_username content : String) : NodeState × List Event × Bool :=
  match lookup_by_name st.online_peers to_username with
  | none => (st, [], false)
  | some (rid, p) =>
    if rid = "" then (st, [], false)
    else
      match dictGet st.peer_boxes rid with
      | none => (st, [], false)
      | some _ =>
        ({ st with message_queue := st.message_queue ++
            [{ message_id := mid, from_user_id := st.user_id,
               from_username := st.username, to_user_id := rid,
               to_username := to_username, content := content, timestamp := now }] },
         [Event.sendCipherMessage p.ip p.port mid], true)

/-- Inputs that mutate node state: a presence datagram, a bootstrap
peer list, a stale-eviction pass, a ciphertext datagram, an outgoing
send.  Each carries its own `time.time()` reading. -/
inductive Input
  | presenceIn (now : Nat) (msg : PresenceMsg) (srcIp : String) (srcPort : Nat)
  | bootstrapIn (now : Nat) (peers : List BPeer)
  | cleanupIn (now : Nat)
  | encryptedIn (data : List Nat) (srcIp : String) (srcPort : Nat)
  | sendIn (now : Nat) (mid to_username content : String)

/-- State transition of one input. -/
def applyInput (parse : String → Bool) (decrypt : String → List Nat → Option Inner)
    (st : NodeState) : Input → NodeState
  | Input.presenceIn now msg ip port => (handle_presence_message parse now st msg ip port).1
  | Input.bootstrapIn now l => update_peer_list parse now st l
  | Input.cleanupIn now => cleanup_peers now st
  | Input.encryptedIn d ip port => (handle_encrypted_message decrypt st d ip port).1
  | Input.sendIn now mid t c => (send_message now mid st t c).1

/-- Run a whole input script; every reachable state is `runInputs` of
some script from `initState`. -/
def runInputs (parse : String → Bool) (decrypt : String → List Nat → Option Inner)
    (st : NodeState) (script : List Input) : NodeState :=
  script.foldl (applyInput parse decrypt) st

/-- The claimed Session invariant, as the spec states it: a box is
cached for a user id iff that user id is in the peer table and its
currently stored public key parses. -/
def sessionInvSpec (parse : String → Bool) (st : NodeState) : Prop :=
  ∀ uid, (dictGet st.peer_boxes uid).isSome = true ↔
    (∃ p, dictGet st.online_peers uid = some p ∧ parse p.pubkey = true)

/-- The Session invariant the code actually maintains: every cached box
was built from a parseable key and belongs to a present peer, and every
present peer whose stored key parses has a box built from exactly that
key.  (A stale box may survive under a peer whose stored key no longer
parses.) -/
def sessionInv (parse : String → Bool) (st : NodeState) : Prop :=
  (∀ uid k, dictGet st.peer_boxes uid = some k →
      parse k = true ∧ dictGet st.online_peers uid ≠ none) ∧
  (∀ uid p, dictGet st.online_peers uid = some p → parse p.pubkey = true →
      dictGet st.peer_boxes uid = some p.pubkey)

/-- Socket identities of the process: `SocketId.main` is `self.socket`,
created and bound once in `__init__` (line 53-54) and used by every
`self.socket.sendto` for presence, pings, pongs and ciphertext;
`SocketId.stunFresh k` is the k-th socket created by the
`socket.socket(socket.AF_INET, socket.SOCK_DGRAM)` call inside
`discover_public_address` (line 90), a distinct OS socket with its own
ephemeral port. -/
inductive SocketId
  | main
  | stunFresh (k : Nat)
deriving DecidableEq, Repr

/-- The socket every peer-traffic `sendto` in the source goes through. -/
def peer_send_socket : SocketId := SocketId.main

/-- The bytes of `bytes.fromhex("0001000800000000")` (line 94): the 8-byte simplified
Binding Request the client emits. -/
def stun_request : List Nat := [0x00, 0x01, 0x00, 0x08, 0x00, 0x00, 0x00, 0x00]

/-- One `sendto` performed during a STUN pass: destination server, the
socket it is sent from, and the payload. -/
structure StunSend where
  server : String
  sock : SocketId
  payload : List Nat
deriving DecidableEq, Repr

/-- The sends of one retry pass of `discover_public_address`
(lines 84-98): for each configured server a fresh socket is created and
the Binding Request is sent from it.  `firstFresh` numbers the sockets
created so far in earlier passes. -/
def stun_pass_sends (servers : List String) (firstFresh : Nat) : List StunSend :=
  servers.enum.map
    (fun q => { server := q.2, sock := SocketId.stunFresh (firstFresh + q.1),
                payload := stun_request })

/-- Big-endian `int.from_bytes`. -/
def bytesToNatBE (l : List Nat) : Nat := l.foldl (fun a b => 256 * a + b) 0

/-- The dotted-quad string built from the four XORed address bytes. -/
def stun_ip_string (b2 b3 b4 b5 : Nat) : String :=
  String.intercalate "." [toString (b2 ^^^ 0x21), toString (b3 ^^^ 0x21),
                          toString (b4 ^^^ 0x21), toString (b5 ^^^ 0x21)]

/-- The response-parsing block of `discover_public_address`
(lines 101-117).  Responses shorter than 20 bytes are skipped; for the
rest, `port_bytes = response[28:30]` and `ip_bytes = response[30:34]`
are taken by Python slicing (short when the response ends early), the
port is the big-endian port bytes XOR 0x2112, and the address is built
from `ip_bytes[0..3]` each XOR 0x21 — an `IndexError` (fewer than four
ip bytes, i.e. a response shorter than 34 bytes) is caught by the
surrounding `except` and the server attempt fails (`none`). -/
def parse_stun_response (response : List Nat) : Option (String × Nat) :=
  if 20 ≤ response.length then
    let port_bytes := (response.drop 28).take 2
    let ip_bytes := (response.drop 30).take 4
    if ip_bytes.length < 4 then none
    else
      match ip_bytes with
      | [b2, b3, b4, b5] =>
          some (stun_ip_string b2 b3 b4 b5, (bytesToNatBE port_bytes) ^^^ 0x2112)
      | _ => none
  else none

/-- A concrete key-parse function for witnesses and counterexamples:
exactly the string "GOOD" decodes to a valid 32-byte key. -/
def parseK : String → Bool := fun s => s = "GOOD"

/-- A concrete decryption function under which every datagram fails to
decrypt, for script witnesses. -/
def decryptNone : String → List Nat → Option Inner := fun _ _ => none

/-- Concrete fresh node used by counterexamples and witnesses. -/
def cexSt0 : NodeState := initState "aaaa" "alice" "SELFPK"

/-- Presence from peer `bbbb` with a parseable key. -/
def cexMsg1 : PresenceMsg :=
  { user_id := "bbbb", username := "bob", status := "online", pubkey := "GOOD" }

/-- Re-announcement of `bbbb` from a new address with an unparseable key. -/
def cexMsg2 : PresenceMsg :=
  { user_id := "bbbb", username := "bob", status := "online", pubkey := "BAD" }

/-- State after `bbbb` announced with a parseable key from 1.1.1.1:100. -/
def cexSt1 : NodeState :=
  (handle_presence_message parseK 0 cexSt0 cexMsg1 "1.1.1.1" 100).1

/-- State after `bbbb` then re-announced from 2.2.2.2:200 with the
unparseable key "BAD". -/
def cexSt2 : NodeState :=
  (handle_presence_message parseK 1 cexSt1 cexMsg2 "2.2.2.2" 200).1

/-- Presence datagram carrying the empty user id (accepted by the
handler: `"" != self.user_id`). -/
def cexMsgEmptyUid : PresenceMsg :=
  { user_id := "", username := "bob", status := "online", pubkey := "GOOD" }

/-- State holding a peer whose user id is the empty string, with a
Session, reached by one presence datagram. -/
def cexSt8 : NodeState :=
  (handle_presence_message parseK 0 cexSt0 cexMsgEmptyUid "9.9.9.9" 4242).1

/-- The Python condition on lines 234-236 (peer absent, or recorded ip
or port differ from the datagram's source address), as a proposition on
the prior state: the upsert classifies as new or address-changed. -/
def new_or_changed (peers : Dict Peer) (uid ip : String) (port : Nat) : Prop :=
  match dictGet peers uid with
  | none => True
  | some p => p.ip ≠ ip ∨ p.port ≠ port

/-- Re-announcement of `bbbb` from its recorded address 1.1.1.1:100 but
with a different display name and a different (still parseable would be
"GOOD"; here different and unparseable) public key. -/
def cexMsg3 : PresenceMsg :=
  { user_id := "bbbb", username := "robert", status := "online", pubkey := "OTHER",
    payload_ip := some "8.8.8.8", payload_port := some 9999 }

/-- Concrete decryption: every datagram decrypts to a chat message
addressed to user id `zzzz` (not self). -/
def decryptMsgOther : String → List Nat → Option Inner :=
  fun _ _ => some (Inner.message "m7" "bbbb" "bob" "zzzz" "zoe" "hi" 5)

/-- Concrete decryption: every datagram decrypts to a delivery receipt
for message id `m1`. -/
def decryptReceiptM1 : String → List Nat → Option Inner :=
  fun _ _ => some (Inner.receipt "m1" "delivered")

/-- A queued outgoing message with id `m1`. -/
def cexPm1 : PendingMsg :=
  { message_id := "m1", from_user_id := "aaaa", from_username := "alice",
    to_user_id := "bbbb", to_username := "bob", content := "hello", timestamp := 3 }

/-- A queued outgoing message with id `m2`. -/
def cexPm2 : PendingMsg :=
  { message_id := "m2", from_user_id := "aaaa", from_username := "alice",
    to_user_id := "bbbb", to_username := "bob", content := "again", timestamp := 4 }

/-- State `cexSt1` with two pending messages queued. -/
def cexSt7 : NodeState := { cexSt1 with message_queue := [cexPm1, cexPm2] }

/-- Self-filter invariant: the node's user id (fixed at `uid`) never
keys the peer table. -/
def selfInv (uid : String) (st : NodeState) : Prop :=
  st.user_id = uid ∧ dictGet st.online_peers uid = none

/-! Association-list lemmas. -/

theorem dictGet_set {α : Type} (d : Dict α) (k : String) (v : α) (u : String) :
    dictGet (dictSet d k v) u = if k = u then some v else dictGet d u := by
  induction d with
  | nil =>
    by_cases h : k = u <;> simp [dictSet, dictGet, h]
  | cons q rest ih =>
    by_cases h : k = u
    · subst h
      by_cases hq : q.1 = k
      · simp [dictSet, dictGet, hq]
      · simp [dictSet, dictGet, hq, ih]
    · by_cases hq : q.1 = k
      · have hqu : ¬ q.1 = u := by rw [hq]; exact h
        simp [dictSet, dictGet, hq, h, hqu]
      · have huk : ¬ u = k := fun hh => h hh.symm
        by_cases hqu : q.1 = u <;> simp [dictSet, dictGet, hq, h, hqu, huk, ih]

theorem dictGet_del {α : Type} (d : Dict α) (k u : String) :
    dictGet (dictDel d k) u = if k = u then none else dictGet d u := by
  induction d with
  | nil =>
    by_cases h : k = u <;> simp [dictDel, dictGet, h]
  | cons q rest ih =>
    by_cases h : k = u
    · subst h
      by_cases hq : q.1 = k <;> simp [dictDel, dictGet, hq, ih]
    · by_cases hq : q.1 = k
      · have hqu : ¬ q.1 = u := by rw [hq]; exact h
        simp [dictDel, dictGet, hq, h, hqu, ih]
      · have huk : ¬ u = k := fun hh => h hh.symm
        by_cases hqu : q.1 = u <;> simp [dictDel, dictGet, hq, h, hqu, huk, ih]

theorem dictContains_eq_isSome {α : Type} (d : Dict α) (k : String) :
    dictContains d k = (dictGet d k).isSome := by
  induction d with
  | nil => simp [dictContains, dictGet]
  | cons q rest ih =>
    by_cases hq : q.1 = k <;> simp [dictContains, dictGet, hq, ih]

/-! Branch lemmas for `handle_presence_message`. -/

theorem handle_presence_self (parse : String → Bool) (now : Nat) (st : NodeState)
    (msg : PresenceMsg) (srcIp : String) (srcPort : Nat)
    (hself : msg.user_id = st.user_id) :
    handle_presence_message parse now st msg srcIp srcPort = (st, []) := by
  unfold handle_presence_message
  rw [if_pos hself]

theorem handle_presence_online_absent (parse : String → Bool) (now : Nat)
    (st : NodeState) (msg : PresenceMsg) (srcIp : String) (srcPort : Nat)
    (hself : msg.user_id ≠ st.user_id) (hon : msg.status = "online")
    (habs : dictGet st.online_peers msg.user_id = none) :
    handle_presence_message parse now st msg srcIp srcPort =
      presence_upsert parse now st msg srcIp srcPort := by
  unfold handle_presence_message
  rw [if_neg hself, if_pos hon]
  split
  · rfl
  · rename_i p2 heq
    simp [habs] at heq

theorem handle_presence_online_changed (parse : String → Bool) (now : Nat)
    (st : NodeState) (msg : PresenceMsg) (srcIp : String) (srcPort : Nat)
    (hself : msg.user_id ≠ st.user_id) (hon : msg.status = "online")
    (p : Peer) (hp : dictGet st.online_peers msg.user_id = some p)
    (hne : p.ip ≠ srcIp ∨ p.port ≠ srcPort) :
    handle_presence_message parse now st msg srcIp srcPort =
      presence_upsert parse now st msg srcIp srcPort := by
  unfold handle_presence_message
  rw [if_neg hself, if_pos hon]
  split
  · rename_i heq
    simp [hp] at heq
  · rename_i p2 heq
    rw [hp] at heq
    injection heq with h2
    subst h2
    rw [if_pos hne]

theorem handle_presence_online_same (parse : String → Bool) (now : Nat)
    (st : NodeState) (msg : PresenceMsg) (srcIp : String) (srcPort : Nat)
    (hself : msg.user_id ≠ st.user_id) (hon : msg.status = "online")
    (p : Peer) (hp : dictGet st.online_peers msg.user_id = some p)
    (hip : p.ip = srcIp) (hport : p.port = srcPort) :
    handle_presence_message parse now st msg srcIp srcPort =
      ({ st with online_peers :=
          dictSet st.online_peers msg.user_id { p with last_seen := now } }, []) := by
  unfold handle_presence_message
  rw [if_neg hself, if_pos hon]
  split
  · rename_i heq
    simp [hp] at heq
  · rename_i p2 heq
    rw [hp] at heq
    injection heq with h2
    subst h2
    rw [if_neg (by simp [hip, hport])]

theorem handle_presence_offline_present (parse : String → Bool) (now : Nat)
    (st : NodeState) (msg : PresenceMsg) (srcIp : String) (srcPort : Nat)
    (hself : msg.user_id ≠ st.user_id) (hoff : msg.status = "offline")
    (p : Peer) (hp : dictGet st.online_peers msg.user_id = some p) :
    handle_presence_message parse now st msg srcIp srcPort =
      ({ st with online_peers := dictDel st.online_peers msg.user_id,
                 peer_boxes := dictDel st.peer_boxes msg.user_id },
       [Event.notifyOffline p.username]) := by
  unfold handle_presence_message
  rw [if_neg hself, if_neg (by rw [hoff]; decide), if_pos hoff]
  split
  · rename_i p2 heq
    rw [hp] at heq
    injection heq with h2
    subst h2
    rfl
  · rename_i heq
    simp [hp] at heq

theorem handle_presence_offline_absent (parse : String → Bool) (now : Nat)
    (st : NodeState) (msg : PresenceMsg) (srcIp : String) (srcPort : Nat)
    (hself : msg.user_id ≠ st.user_id) (hoff : msg.status = "offline")
    (habs : dictGet st.online_peers msg.user_id = none) :
    handle_presence_message parse now st msg srcIp srcPort = (st, []) := by
  unfold handle_presence_message
  rw [if_neg hself, if_neg (by rw [hoff]; decide), if_pos hoff]
  split
  · rename_i p2 heq
    simp [habs] at heq
  · rfl

theorem handle_presence_other (parse : String → Bool) (now : Nat)
    (st : NodeState) (msg : PresenceMsg) (srcIp : String) (srcPort : Nat)
    (hself : msg.user_id ≠ st.user_id) (hnon : msg.status ≠ "online")
    (hnoff : msg.status ≠ "offline") :
    handle_presence_message parse now st msg srcIp srcPort = (st, []) := by
  unfold handle_presence_message
  rw [if_neg hself, if_neg hnon, if_neg hnoff]

theorem presence_upsert_peers (parse : String → Bool) (now : Nat) (st : NodeState)
    (msg : PresenceMsg) (srcIp : String) (srcPort : Nat) :
    (presence_upsert parse now st msg srcIp srcPort).1.online_peers =
      dictSet st.online_peers msg.user_id
        { username := msg.username, ip := srcIp, port := srcPort,
          pubkey := msg.pubkey, last_seen := now } := by
  by_cases hp : parse msg.pubkey <;> simp [presence_upsert, hp]

/-! Claim C4. -/

/-- C4: for every presence(online) datagram from a non-self user id, an
absent user id is inserted, a present one whose recorded ip or port
differ from the datagram's source address is replaced, and otherwise
only `last_seen` is updated; in the first two cases the record stores
the datagram's source address (`srcIp`, `srcPort`) — the payload's
advertised address fields never enter the record. -/
theorem presence_online_upsert_cases (parse : String → Bool) (now : Nat)
    (st : NodeState) (msg : PresenceMsg) (srcIp : String) (srcPort : Nat)
    (hself : msg.user_id ≠ st.user_id) (hon : msg.status = "online") :
    (dictGet st.online_peers msg.user_id = none →
      (handle_presence_message parse now st msg srcIp srcPort).1.online_peers =
        dictSet st.online_peers msg.user_id
          { username := msg.username, ip := srcIp, port := srcPort,
            pubkey := msg.pubkey, last_seen := now }) ∧
    (∀ p, dictGet st.online_peers msg.user_id = some p →
      (p.ip ≠ srcIp ∨ p.port ≠ srcPort) →
      (handle_presence_message parse now st msg srcIp srcPort).1.online_peers =
        dictSet st.online_peers msg.user_id
          { username := msg.username, ip := srcIp, port := srcPort,
            pubkey := msg.pubkey, last_seen := now }) ∧
    (∀ p, dictGet st.online_peers msg.user_id = some p →
      p.ip = srcIp → p.port = srcPort →
      (handle_presence_message parse now st msg srcIp srcPort).1.online_peers =
        dictSet st.online_peers msg.user_id { p with last_seen := now }) := by
  refine ⟨?_, ?_, ?_⟩
  · intro habs
    rw [handle_presence_online_absent parse now st msg srcIp srcPort hself hon habs]
    exact presence_upsert_peers parse now st msg srcIp srcPort
  · intro p hp hne
    rw [handle_presence_online_changed parse now st msg srcIp srcPort hself hon p hp hne]
    exact presence_upsert_peers parse now st msg srcIp srcPort
  · intro p hp hip hport
    rw [handle_presence_online_same parse now st msg srcIp srcPort hself hon p hp hip hport]

/-- C4 witness: `bbbb`, recorded at 1.1.1.1:100 in `cexSt1`, announces
from 2.2.2.2:200; the table is updated to the source address. -/
theorem presence_online_upsert_cases_witness :
    (handle_presence_message parseK 7 cexSt1 cexMsg2 "2.2.2.2" 200).1.online_peers =
      dictSet cexSt1.online_peers "bbbb"
        { username := "bob", ip := "2.2.2.2", port := 200, pubkey := "BAD",
          last_seen := 7 } := by
  have h := presence_online_upsert_cases parseK 7 cexSt1 cexMsg2 "2.2.2.2" 200
    (by decide) (by decide)
  exact h.2.1 { username := "bob", ip := "1.1.1.1", port := 100, pubkey := "GOOD",
                last_seen := 0 } (by decide) (by decide)

/-! Claim C10. -/

/-- C10: a presence(online) datagram from a peer already recorded at the
same source address leaves the stored username, stored pubkey and the
box cache untouched — even when the datagram carries a different
username, a different public key, or advertised payload address fields —
and produces no reply or notification; only `last_seen` is set to the
current time. -/
theorem presence_same_addr_frame (parse : String → Bool) (now : Nat)
    (st : NodeState) (msg : PresenceMsg) (srcIp : String) (srcPort : Nat) (p : Peer)
    (hself : msg.user_id ≠ st.user_id) (hon : msg.status = "online")
    (hp : dictGet st.online_peers msg.user_id = some p)
    (hip : p.ip = srcIp) (hport : p.port = srcPort) :
    (handle_presence_message parse now st msg srcIp srcPort).1.online_peers =
      dictSet st.online_peers msg.user_id { p with last_seen := now } ∧
    (handle_presence_message parse now st msg srcIp srcPort).1.peer_boxes =
      st.peer_boxes ∧
    (handle_presence_message parse now st msg srcIp srcPort).2 = [] ∧
    dictGet (handle_presence_message parse now st msg srcIp srcPort).1.online_peers
        msg.user_id = some { p with last_seen := now } := by
  rw [handle_presence_online_same parse now st msg srcIp srcPort hself hon p hp hip hport]
  refine ⟨rfl, rfl, rfl, ?_⟩
  rw [dictGet_set]
  simp

/-- C10 witness: `bbbb` re-announces from its recorded address with a
different display name, a different key and a bogus advertised address;
the box cache is untouched and nothing is sent. -/
theorem presence_same_addr_frame_witness :
    (handle_presence_message parseK 9 cexSt1 cexMsg3 "1.1.1.1" 100).1.peer_boxes =
      cexSt1.peer_boxes ∧
    (handle_presence_message parseK 9 cexSt1 cexMsg3 "1.1.1.1" 100).2 = [] := by
  have h := presence_same_addr_frame parseK 9 cexSt1 cexMsg3 "1.1.1.1" 100
    { username := "bob", ip := "1.1.1.1", port := 100, pubkey := "GOOD", last_seen := 0 }
    (by decide) (by decide) (by decide) (by decide) (by decide)
  exact ⟨h.2.1, h.2.2.1⟩

/-! Claim C9. -/

/-- C9: a ciphertext datagram that decrypts to a chat message addressed
to a different user id is silently discarded: nothing is surfaced, no
receipt is sent, and the node state (peer table, box cache, queue) is
unchanged. -/
theorem cipher_message_foreign_dropped (decrypt : String → List Nat → Option Inner)
    (st : NodeState) (data : List Nat) (srcIp : String) (srcPort : Nat)
    (sid bk mid fuid fu tuid tn content : String) (ts : Nat)
    (hsid : find_by_addr st.online_peers srcIp srcPort = some sid)
    (hne : sid ≠ "")
    (hbox : dictGet st.peer_boxes sid = some bk)
    (hdec : decrypt bk data = some (Inner.message mid fuid fu tuid tn content ts))
    (hto : tuid ≠ st.user_id) :
    handle_encrypted_message decrypt st data srcIp srcPort = (st, []) := by
  simp only [handle_encrypted_message, hsid, hbox, hdec]
  rw [if_neg hne, if_neg hto]

/-- C9 witness: a datagram from `bbbb`'s recorded address decrypting to
a message for user id `zzzz` leaves `cexSt1` unchanged with no output. -/
theorem cipher_message_foreign_dropped_witness :
    handle_encrypted_message decryptMsgOther cexSt1 [0] "1.1.1.1" 100 = (cexSt1, []) :=
  cipher_message_foreign_dropped decryptMsgOther cexSt1 [0] "1.1.1.1" 100
    "bbbb" "GOOD" "m7" "bbbb" "bob" "zzzz" "zoe" "hi" 5
    (by decide) (by decide) (by decide) (by decide) (by decide)

/-! Claim C7. -/

theorem resolve_receipt_nomatch (q : List PendingMsg) (mid : String)
    (h : ∀ x ∈ q, x.message_id ≠ mid) : (resolve_receipt q mid).1 = q := by
  induction q with
  | nil => rfl
  | cons m rest ih =>
    have hm : m.message_id ≠ mid := h m (by simp)
    simp only [resolve_receipt, if_neg hm]
    rw [ih (fun x hx => h x (by simp [hx]))]

theorem resolve_receipt_first (l1 : List PendingMsg) (m : PendingMsg)
    (l2 : List PendingMsg) (mid : String) (hm : m.message_id = mid)
    (hl1 : ∀ x ∈ l1, x.message_id ≠ mid) :
    (resolve_receipt (l1 ++ m :: l2) mid).1 = l1 ++ l2 := by
  induction l1 with
  | nil => simp [resolve_receipt, hm]
  | cons a rest ih =>
    have ha : a.message_id ≠ mid := hl1 a (by simp)
    simp only [List.cons_append, resolve_receipt, if_neg ha, List.append_eq]
    rw [ih (fun x hx => hl1 x (by simp [hx]))]

/-- C7: an incoming receipt removes exactly the first queue entry whose
message id matches, so the queue length decreases by exactly one; a
receipt matching no entry leaves the queue unchanged, making repeated
receipts for the same id after the first removal no-ops.  Nothing else
in the state changes. -/
theorem receipt_resolution (decrypt : String → List Nat → Option Inner)
    (st : NodeState) (data : List Nat) (srcIp : String) (srcPort : Nat)
    (sid bk mid status : String)
    (hsid : find_by_addr st.online_peers srcIp srcPort = some sid)
    (hne : sid ≠ "")
    (hbox : dictGet st.peer_boxes sid = some bk)
    (hdec : decrypt bk data = some (Inner.receipt mid status)) :
    (handle_encrypted_message decrypt st data srcIp srcPort).1 =
      { st with message_queue := (resolve_receipt st.message_queue mid).1 } ∧
    (∀ l1 m l2, st.message_queue = l1 ++ m :: l2 → m.message_id = mid →
      (∀ x ∈ l1, x.message_id ≠ mid) →
      (handle_encrypted_message decrypt st data srcIp srcPort).1.message_queue =
        l1 ++ l2 ∧
      (handle_encrypted_message decrypt st data srcIp srcPort).1.message_queue.length
        + 1 = st.message_queue.length) ∧
    ((∀ x ∈ st.message_queue, x.message_id ≠ mid) →
      (handle_encrypted_message decrypt st data srcIp srcPort).1.message_queue =
        st.message_queue) := by
  have hstate : (handle_encrypted_message decrypt st data srcIp srcPort).1 =
      { st with message_queue := (resolve_receipt st.message_queue mid).1 } := by
    simp only [handle_encrypted_message, hsid, hbox, hdec]
    rw [if_neg hne]
  refine ⟨hstate, ?_, ?_⟩
  · intro l1 m l2 hq hm hl1
    rw [hstate]
    constructor
    · show (resolve_receipt st.message_queue mid).1 = l1 ++ l2
      rw [hq]
      exact resolve_receipt_first l1 m l2 mid hm hl1
    · show (resolve_receipt st.message_queue mid).1.length + 1 =
        st.message_queue.length
      rw [hq, resolve_receipt_first l1 m l2 mid hm hl1]
      simp only [List.length_append, List.length_cons]
      omega
  · intro hall
    rw [hstate]
    exact resolve_receipt_nomatch st.message_queue mid hall

/-- C7 witness: with `[cexPm1, cexPm2]` queued, a receipt for `m1`
leaves exactly `[cexPm2]`. -/
theorem receipt_resolution_witness :
    (handle_encrypted_message decryptReceiptM1 cexSt7 [0] "1.1.1.1" 100).1.message_queue =
      [cexPm2] := by
  have h := receipt_resolution decryptReceiptM1 cexSt7 [0] "1.1.1.1" 100 "bbbb" "GOOD"
    "m1" "delivered" (by decide) (by decide) (by decide) (by decide)
  exact (h.2.1 [] cexPm1 [cexPm2] (by decide) (by decide) (by simp)).1

/-! Claim C5. -/

/-- C5 counterexample: a fresh peer announces with an unparseable key.
The upsert is `new` — the peer enters the table — but no reply is sent:
the reply `sendto` sits after box construction inside the `try` block,
so the key-parse exception skips it.  This refutes the claim that a
new/address-changed upsert always triggers a presence reply "including
one whose pubkey fails to parse". -/
theorem presence_reply_missing_cex :
    dictGet cexSt0.online_peers "bbbb" = none ∧
    dictGet ((handle_presence_message parseK 0 cexSt0 cexMsg2 "9.9.9.9" 1234).1.online_peers)
        "bbbb" =
      some { username := "bob", ip := "9.9.9.9", port := 1234, pubkey := "BAD",
             last_seen := 0 } ∧
    (handle_presence_message parseK 0 cexSt0 cexMsg2 "9.9.9.9" 1234).2 = [] := by
  decide

/-- C5 amended: on a presence(online) datagram from a non-self user id,
the node sends anything at all iff the upsert is new/address-changed AND
the carried pubkey parses; in that case the output is exactly the
presence(online) reply to the source address followed by the arrival
notification. -/
theorem presence_reply_iff_key_parses (parse : String → Bool) (now : Nat)
    (st : NodeState) (msg : PresenceMsg) (srcIp : String) (srcPort : Nat)
    (hself : msg.user_id ≠ st.user_id) (hon : msg.status = "online") :
    ((handle_presence_message parse now st msg srcIp srcPort).2 ≠ [] ↔
      (new_or_changed st.online_peers msg.user_id srcIp srcPort ∧
       parse msg.pubkey = true)) ∧
    (new_or_changed st.online_peers msg.user_id srcIp srcPort →
     parse msg.pubkey = true →
      (handle_presence_message parse now st msg srcIp srcPort).2 =
        [Event.sendPresence srcIp srcPort st.user_id st.username "online" st.self_pubkey,
         Event.notifyOnline msg.username]) := by
  cases hget : dictGet st.online_peers msg.user_id with
  | none =>
    rw [handle_presence_online_absent parse now st msg srcIp srcPort hself hon hget]
    have hnc : new_or_changed st.online_peers msg.user_id srcIp srcPort := by
      simp [new_or_changed, hget]
    cases hp : parse msg.pubkey with
    | true =>
      exact ⟨by simp [presence_upsert, hp, hnc], fun _ _ => by simp [presence_upsert, hp]⟩
    | false =>
      refine ⟨by simp [presence_upsert, hp], fun _ hpp => ?_⟩
      cases hpp
  | some p =>
    by_cases hne : p.ip ≠ srcIp ∨ p.port ≠ srcPort
    · rw [handle_presence_online_changed parse now st msg srcIp srcPort hself hon p hget hne]
      have hnc : new_or_changed st.online_peers msg.user_id srcIp srcPort := by
        simp only [new_or_changed, hget]
        exact hne
      cases hp : parse msg.pubkey with
      | true =>
        exact ⟨by simp [presence_upsert, hp, hnc], fun _ _ => by simp [presence_upsert, hp]⟩
      | false =>
        refine ⟨by simp [presence_upsert, hp], fun _ hpp => ?_⟩
        cases hpp
    · push_neg at hne
      rw [handle_presence_online_same parse now st msg srcIp srcPort hself hon p hget
        hne.1 hne.2]
      have hnc : ¬ new_or_changed st.online_peers msg.user_id srcIp srcPort := by
        simp [new_or_changed, hget, hne.1, hne.2]
      exact ⟨by simp [hnc], fun hc _ => absurd hc hnc⟩

/-- C5 amended witness: a fresh peer announcing with a parseable key
gets exactly the presence reply plus the arrival notification. -/
theorem presence_reply_iff_key_parses_witness :
    (handle_presence_message parseK 0 cexSt0 cexMsg1 "1.1.1.1" 100).2 =
      [Event.sendPresence "1.1.1.1" 100 "aaaa" "alice" "online" "SELFPK",
       Event.notifyOnline "bob"] := by
  have h := presence_reply_iff_key_parses parseK 0 cexSt0 cexMsg1 "1.1.1.1" 100
    (by decide) (by decide)
  exact h.2 (by simp [new_or_changed, cexSt0, initState, dictGet]) (by decide)

/-! Claim C8. -/

/-- C8 counterexample: a peer whose user id is the empty string (sent by
a remote node; nothing stops it entering the table) matches the name
lookup and has a Session, yet `send_message` returns `False`, because
Python's `if not recipient_id` treats the empty-string user id as
falsy.  The state `cexSt8` is reachable by a single presence datagram. -/
theorem send_not_found_empty_uid_cex :
    lookup_by_name cexSt8.online_peers "BOB" =
      some ("", { username := "bob", ip := "9.9.9.9", port := 4242, pubkey := "GOOD",
                  last_seen := 0 }) ∧
    dictGet cexSt8.peer_boxes "" = some "GOOD" ∧
    (send_message 1 "m1" cexSt8 "BOB" "hi").2.2 = false ∧
    (send_message 1 "m1" cexSt8 "BOB" "hi").1 = cexSt8 := by
  decide

/-- C8 amended: `send_message` returns `False` exactly when the
case-insensitive name lookup fails, or the matched peer's user id is the
empty string (Python falsiness), or no Session exists for that user id;
whenever it returns `False` the whole state — queue and peer table — is
unchanged. -/
theorem send_not_found_characterisation (now : Nat) (mid : String) (st : NodeState)
    (toName content : String) :
    ((send_message now mid st toName content).2.2 = false ↔
      (lookup_by_name st.online_peers toName = none ∨
       ∃ rid p, lookup_by_name st.online_peers toName = some (rid, p) ∧
         (rid = "" ∨ dictGet st.peer_boxes rid = none))) ∧
    ((send_message now mid st toName content).2.2 = false →
      (send_message now mid st toName content).1 = st) := by
  cases hl : lookup_by_name st.online_peers toName with
  | none =>
    exact ⟨by simp [send_message, hl], fun _ => by simp [send_message, hl]⟩
  | some rp =>
    obtain ⟨rid, p⟩ := rp
    by_cases hrid : rid = ""
    · subst hrid
      refine ⟨?_, fun _ => by simp [send_message, hl]⟩
      simp only [send_message, hl]
      constructor
      · intro _
        exact Or.inr ⟨"", p, rfl, Or.inl rfl⟩
      · intro _
        simp
    · cases hbox : dictGet st.peer_boxes rid with
      | none =>
        refine ⟨?_, fun _ => by simp [send_message, hl, hrid, hbox]⟩
        simp only [send_message, hl, if_neg hrid, hbox]
        constructor
        · intro _
          exact Or.inr ⟨rid, p, rfl, Or.inr hbox⟩
        · intro _
          trivial
      | some bk =>
        refine ⟨?_, ?_⟩
        · simp only [send_message, hl, if_neg hrid, hbox]
          constructor
          · intro hfalse
            cases hfalse
          · rintro (hnone | ⟨rid2, p2, hsome, hbad⟩)
            · cases hnone
            · injection hsome with hpair
              injection hpair with h1 h2
              subst h1
              subst h2
              rcases hbad with hbad | hbad
              · exact absurd hbad hrid
              · rw [hbox] at hbad
                cases hbad
        · intro hfalse
          simp only [send_message, hl, if_neg hrid, hbox] at hfalse
          cases hfalse

/-- C8 amended witness: in `cexSt1` the name "carol" is unknown, so the
send reports `False` and leaves the state unchanged. -/
theorem send_not_found_characterisation_witness :
    (send_message 5 "m9" cexSt1 "carol" "yo").2.2 = false ∧
    (send_message 5 "m9" cexSt1 "carol" "yo").1 = cexSt1 := by
  have h := send_not_found_characterisation 5 "m9" cexSt1 "carol" "yo"
  have hf : (send_message 5 "m9" cexSt1 "carol" "yo").2.2 = false :=
    h.1.mpr (Or.inl (by decide))
  exact ⟨hf, h.2 hf⟩

/-! Claim C6. -/

/-- C6 counterexample: a 20-byte response satisfies the claimed "at
least 20 bytes" condition, yet parsing fails — `ip_bytes` is empty, the
`ip_bytes[i]` loop raises `IndexError`, and the server attempt is
treated as failed rather than succeeding. -/
theorem stun_short_response_cex :
    20 ≤ (List.replicate 20 0).length ∧
    parse_stun_response (List.replicate 20 0) = none := by
  decide

/-- C6 amended: parsing succeeds exactly for responses of at least 34
bytes, returning the two bytes at offset 28 (big-endian) XOR 0x2112 as
the port and the four following bytes each XOR 0x21, dot-joined, as the
address; responses of 20 to 33 bytes raise an index error and fail. -/
theorem stun_parse_characterisation (pre post : List Nat) (b0 b1 b2 b3 b4 b5 : Nat)
    (hpre : pre.length = 28) (short : List Nat)
    (h20 : 20 ≤ short.length) (h34 : short.length < 34) :
    parse_stun_response (pre ++ b0 :: b1 :: b2 :: b3 :: b4 :: b5 :: post) =
      some (stun_ip_string b2 b3 b4 b5, (256 * b0 + b1) ^^^ 0x2112) ∧
    parse_stun_response short = none := by
  constructor
  · have hdrop : (pre ++ b0 :: b1 :: b2 :: b3 :: b4 :: b5 :: post).drop 28 =
        b0 :: b1 :: b2 :: b3 :: b4 :: b5 :: post := by
      rw [← hpre]
      exact List.drop_left pre _
    have hdrop30 : (pre ++ b0 :: b1 :: b2 :: b3 :: b4 :: b5 :: post).drop 30 =
        b2 :: b3 :: b4 :: b5 :: post := by
      have h30 : (30 : Nat) = 28 + 2 := rfl
      rw [h30, ← List.drop_drop, hdrop]
      rfl
    have hlen : 20 ≤ (pre ++ b0 :: b1 :: b2 :: b3 :: b4 :: b5 :: post).length := by
      simp only [List.length_append, List.length_cons, hpre]
      omega
    unfold parse_stun_response
    rw [if_pos hlen, hdrop, hdrop30]
    simp [bytesToNatBE, stun_ip_string]
  · unfold parse_stun_response
    rw [if_pos h20]
    have hlen4 : ((short.drop 30).take 4).length < 4 := by
      simp only [List.length_take, List.length_drop]
      omega
    rw [if_pos hlen4]

/-- C6 amended witness: a concrete 34-byte response parses to the XORed
address and port, while a 25-byte response fails. -/
theorem stun_parse_characterisation_witness :
    parse_stun_response
        (List.replicate 28 0 ++ 33 :: 18 :: 64 :: 65 :: 66 :: 67 :: []) =
      some (stun_ip_string 64 65 66 67, (256 * 33 + 18) ^^^ 0x2112) ∧
    parse_stun_response (List.replicate 25 7) = none :=
  stun_parse_characterisation (List.replicate 28 0) [] 33 18 64 65 66 67
    (by decide) (List.replicate 25 7) (by decide) (by decide)

/-! Claim C2. -/

/-- C2 (code bug): every Binding Request of a STUN pass carries the
simplified request bytes but is sent from a socket freshly created
inside `discover_public_address`, never from `self.socket` — the socket
all peer traffic uses — so the NAT mapping the server reports belongs to
the temporary socket, not the one other peers will reach. -/
theorem stun_request_socket_not_peer_socket (servers : List String) (firstFresh : Nat)
    (s : StunSend) (hs : s ∈ stun_pass_sends servers firstFresh) :
    s.payload = stun_request ∧ s.sock ≠ peer_send_socket := by
  unfold stun_pass_sends at hs
  obtain ⟨q, hq, hfq⟩ := List.mem_map.mp hs
  subst hfq
  exact ⟨rfl, by simp [peer_send_socket]⟩

/-- C2 witness: the single send of a one-server pass uses fresh socket
number 0, not the peer-traffic socket. -/
theorem stun_request_socket_witness :
    ({ server := "stun.l.google.com:19302", sock := SocketId.stunFresh 0,
       payload := stun_request } : StunSend).payload = stun_request ∧
    ({ server := "stun.l.google.com:19302", sock := SocketId.stunFresh 0,
       payload := stun_request } : StunSend).sock ≠ peer_send_socket :=
  stun_request_socket_not_peer_socket ["stun.l.google.com:19302"] 0 _ (by decide)

/-! Claim C1: Session-cache invariant machinery. -/

theorem presence_upsert_fst (parse : String → Bool) (now : Nat) (st : NodeState)
    (msg : PresenceMsg) (srcIp : String) (srcPort : Nat) :
    (presence_upsert parse now st msg srcIp srcPort).1 =
      if parse msg.pubkey then
        { st with
          online_peers := dictSet st.online_peers msg.user_id
            { username := msg.username, ip := srcIp, port := srcPort,
              pubkey := msg.pubkey, last_seen := now },
          peer_boxes := dictSet st.peer_boxes msg.user_id msg.pubkey }
      else
        { st with
          online_peers := dictSet st.online_peers msg.user_id
            { username := msg.username, ip := srcIp, port := srcPort,
              pubkey := msg.pubkey, last_seen := now } } := by
  by_cases hp : parse msg.pubkey <;> simp [presence_upsert, hp]

theorem presence_upsert_user_id (parse : String → Bool) (now : Nat) (st : NodeState)
    (msg : PresenceMsg) (srcIp : String) (srcPort : Nat) :
    (presence_upsert parse now st msg srcIp srcPort).1.user_id = st.user_id := by
  by_cases hp : parse msg.pubkey <;> simp [presence_upsert, hp]

theorem update_peer_entry_eq (parse : String → Bool) (now : Nat) (st : NodeState)
    (peer : BPeer) :
    update_peer_entry parse now st peer =
      if peer.user_id = st.user_id then st
      else if parse peer.pubkey then
        { st with
          online_peers := dictSet st.online_peers peer.user_id
            { username := peer.username, ip := peer.ip, port := peer.port,
              pubkey := peer.pubkey, last_seen := now },
          peer_boxes := dictSet st.peer_boxes peer.user_id peer.pubkey }
      else
        { st with
          online_peers := dictSet st.online_peers peer.user_id
            { username := peer.username, ip := peer.ip, port := peer.port,
              pubkey := peer.pubkey, last_seen := now } } := by
  by_cases hne : peer.user_id = st.user_id
  · simp [update_peer_entry, hne]
  · by_cases hp : parse peer.pubkey <;> simp [update_peer_entry, hne, hp]

theorem sessionInv_set_both (parse : String → Bool) (st : NodeState)
    (uid un ip k : String) (port now : Nat) (h : sessionInv parse st)
    (hk : parse k = true) :
    sessionInv parse { st with
      online_peers := dictSet st.online_peers uid
        { username := un, ip := ip, port := port, pubkey := k, last_seen := now },
      peer_boxes := dictSet st.peer_boxes uid k } := by
  constructor
  · intro u k2 hk2
    rw [dictGet_set] at hk2
    by_cases hu : uid = u
    · rw [if_pos hu] at hk2
      injection hk2 with hkk
      subst hkk
      refine ⟨hk, ?_⟩
      rw [dictGet_set, if_pos hu]
      simp
    · rw [if_neg hu] at hk2
      obtain ⟨h1, h2⟩ := h.1 u k2 hk2
      refine ⟨h1, ?_⟩
      rw [dictGet_set, if_neg hu]
      exact h2
  · intro u p hpu hpp
    rw [dictGet_set] at hpu
    by_cases hu : uid = u
    · rw [if_pos hu] at hpu
      injection hpu with hp2
      subst hp2
      rw [dictGet_set, if_pos hu]
    · rw [if_neg hu] at hpu
      rw [dictGet_set, if_neg hu]
      exact h.2 u p hpu hpp

theorem sessionInv_set_peer_bad (parse : String → Bool) (st : NodeState)
    (uid un ip k : String) (port now : Nat) (h : sessionInv parse st)
    (hk : parse k = false) :
    sessionInv parse { st with
      online_peers := dictSet st.online_peers uid
        { username := un, ip := ip, port := port, pubkey := k, last_seen := now } } := by
  constructor
  · intro u k2 hk2
    obtain ⟨h1, h2⟩ := h.1 u k2 hk2
    refine ⟨h1, ?_⟩
    rw [dictGet_set]
    by_cases hu : uid = u
    · rw [if_pos hu]
      simp
    · rw [if_neg hu]
      exact h2
  · intro u p hpu hpp
    rw [dictGet_set] at hpu
    by_cases hu : uid = u
    · rw [if_pos hu] at hpu
      injection hpu with hp2
      subst hp2
      have hkk : parse k = true := hpp
      rw [hk] at hkk
      cases hkk
    · rw [if_neg hu] at hpu
      exact h.2 u p hpu hpp

theorem sessionInv_refresh (parse : String → Bool) (st : NodeState)
    (uid : String) (now : Nat) (p : Peer) (h : sessionInv parse st)
    (hget : dictGet st.online_peers uid = some p) :
    sessionInv parse { st with
      online_peers := dictSet st.online_peers uid { p with last_seen := now } } := by
  constructor
  · intro u k2 hk2
    obtain ⟨h1, h2⟩ := h.1 u k2 hk2
    refine ⟨h1, ?_⟩
    rw [dictGet_set]
    by_cases hu : uid = u
    · rw [if_pos hu]
      simp
    · rw [if_neg hu]
      exact h2
  · intro u q hqu hqq
    rw [dictGet_set] at hqu
    by_cases hu : uid = u
    · rw [if_pos hu] at hqu
      injection hqu with hq2
      subst hq2
      have hpp : parse p.pubkey = true := hqq
      exact h.2 u p (by rw [← hu]; exact hget) hpp
    · rw [if_neg hu] at hqu
      exact h.2 u q hqu hqq

theorem sessionInv_del_both (parse : String → Bool) (st : NodeState) (uid : String)
    (h : sessionInv parse st) :
    sessionInv parse { st with online_peers := dictDel st.online_peers uid,
                               peer_boxes := dictDel st.peer_boxes uid } := by
  constructor
  · intro u k2 hk2
    rw [dictGet_del] at hk2
    by_cases hu : uid = u
    · rw [if_pos hu] at hk2
      cases hk2
    · rw [if_neg hu] at hk2
      obtain ⟨h1, h2⟩ := h.1 u k2 hk2
      refine ⟨h1, ?_⟩
      rw [dictGet_del, if_neg hu]
      exact h2
  · intro u q hqu hqq
    rw [dictGet_del] at hqu
    by_cases hu : uid = u
    · rw [if_pos hu] at hqu
      cases hqu
    · rw [if_neg hu] at hqu
      rw [dictGet_del, if_neg hu]
      exact h.2 u q hqu hqq

theorem sessionInv_presence_upsert (parse : String → Bool) (now : Nat)
    (st : NodeState) (msg : PresenceMsg) (srcIp : String) (srcPort : Nat)
    (h : sessionInv parse st) :
    sessionInv parse (presence_upsert parse now st msg srcIp srcPort).1 := by
  rw [presence_upsert_fst]
  by_cases hp : parse msg.pubkey = true
  · rw [if_pos hp]
    exact sessionInv_set_both parse st msg.user_id msg.username srcIp msg.pubkey
      srcPort now h hp
  · have hpf : parse msg.pubkey = false := by
      revert hp
      cases parse msg.pubkey <;> simp
    rw [if_neg hp]
    exact sessionInv_set_peer_bad parse st msg.user_id msg.username srcIp msg.pubkey
      srcPort now h hpf

theorem sessionInv_presence (parse : String → Bool) (now : Nat) (st : NodeState)
    (msg : PresenceMsg) (srcIp : String) (srcPort : Nat) (h : sessionInv parse st) :
    sessionInv parse (handle_presence_message parse now st msg srcIp srcPort).1 := by
  by_cases hself : msg.user_id = st.user_id
  · rw [handle_presence_self parse now st msg srcIp srcPort hself]
    exact h
  · by_cases hon : msg.status = "online"
    · cases hget : dictGet st.online_peers msg.user_id with
      | none =>
        rw [handle_presence_online_absent parse now st msg srcIp srcPort hself hon hget]
        exact sessionInv_presence_upsert parse now st msg srcIp srcPort h
      | some p =>
        by_cases hne : p.ip ≠ srcIp ∨ p.port ≠ srcPort
        · rw [handle_presence_online_changed parse now st msg srcIp srcPort hself hon
            p hget hne]
          exact sessionInv_presence_upsert parse now st msg srcIp srcPort h
        · push_neg at hne
          rw [handle_presence_online_same parse now st msg srcIp srcPort hself hon
            p hget hne.1 hne.2]
          exact sessionInv_refresh parse st msg.user_id now p h hget
    · by_cases hoff : msg.status = "offline"
      · cases hget : dictGet st.online_peers msg.user_id with
        | some p =>
          rw [handle_presence_offline_present parse now st msg srcIp srcPort hself
            hoff p hget]
          exact sessionInv_del_both parse st msg.user_id h
        | none =>
          rw [handle_presence_offline_absent parse now st msg srcIp srcPort hself
            hoff hget]
          exact h
      · rw [handle_presence_other parse now st msg srcIp srcPort hself hon hoff]
        exact h

theorem sessionInv_update_entry (parse : String → Bool) (now : Nat) (st : NodeState)
    (peer : BPeer) (h : sessionInv parse st) :
    sessionInv parse (update_peer_entry parse now st peer) := by
  rw [update_peer_entry_eq]
  by_cases hself : peer.user_id = st.user_id
  · rw [if_pos hself]
    exact h
  · rw [if_neg hself]
    by_cases hp : parse peer.pubkey = true
    · rw [if_pos hp]
      exact sessionInv_set_both parse st peer.user_id peer.username peer.ip peer.pubkey
        peer.port now h hp
    · have hpf : parse peer.pubkey = false := by
        revert hp
        cases parse peer.pubkey <;> simp
      rw [if_neg hp]
      exact sessionInv_set_peer_bad parse st peer.user_id peer.username peer.ip
        peer.pubkey peer.port now h hpf

theorem sessionInv_update_list (parse : String → Bool) (now : Nat) :
    ∀ (l : List BPeer) (st : NodeState), sessionInv parse st →
      sessionInv parse (update_peer_list parse now st l) := by
  intro l
  induction l with
  | nil => intro st h; exact h
  | cons a rest ih =>
    intro st h
    exact ih (update_peer_entry parse now st a) (sessionInv_update_entry parse now st a h)

theorem sessionInv_del_fold (parse : String → Bool) :
    ∀ (l : List String) (st : NodeState), sessionInv parse st →
      sessionInv parse (l.foldl (fun s uid =>
        { s with peer_boxes := dictDel s.peer_boxes uid,
                 online_peers := dictDel s.online_peers uid }) st) := by
  intro l
  induction l with
  | nil => intro st h; exact h
  | cons a rest ih =>
    intro st h
    exact ih _ (sessionInv_del_both parse st a h)

theorem sessionInv_cleanup (parse : String → Bool) (now : Nat) (st : NodeState)
    (h : sessionInv parse st) : sessionInv parse (cleanup_peers now st) := by
  unfold cleanup_peers
  exact sessionInv_del_fold parse _ st h

theorem sessionInv_encrypted (parse : String → Bool)
    (decrypt : String → List Nat → Option Inner) (st : NodeState) (data : List Nat)
    (srcIp : String) (srcPort : Nat) (h : sessionInv parse st) :
    sessionInv parse (handle_encrypted_message decrypt st data srcIp srcPort).1 := by
  unfold handle_encrypted_message
  repeat' split
  all_goals exact h

theorem sessionInv_send (parse : String → Bool) (now : Nat) (mid : String)
    (st : NodeState) (t c : String) (h : sessionInv parse st) :
    sessionInv parse (send_message now mid st t c).1 := by
  unfold send_message
  repeat' split
  all_goals exact h

theorem sessionInv_applyInput (parse : String → Bool)
    (decrypt : String → List Nat → Option Inner) (st : NodeState) (inp : Input)
    (h : sessionInv parse st) :
    sessionInv parse (applyInput parse decrypt st inp) := by
  cases inp with
  | presenceIn now msg ip port => exact sessionInv_presence parse now st msg ip port h
  | bootstrapIn now l => exact sessionInv_update_list parse now l st h
  | cleanupIn now => exact sessionInv_cleanup parse now st h
  | encryptedIn d ip port => exact sessionInv_encrypted parse decrypt st d ip port h
  | sendIn now mid t c => exact sessionInv_send parse now mid st t c h

theorem sessionInv_init (parse : String → Bool) (uid un pk : String) :
    sessionInv parse (initState uid un pk) := by
  constructor
  · intro u k hk
    simp [initState, dictGet] at hk
  · intro u p hp _
    simp [initState, dictGet] at hp

/-- C1 counterexample: from a fresh node, `bbbb` announces with a
parseable key (a Session is built), then re-announces from a new address
with the unparseable key "BAD".  At the resulting reachable state
`cexSt2` the table stores the unparseable key while the stale Session
survives, so the claimed iff — a Session exists iff the peer is present
with a parseable stored key — fails exactly in the case the claim
singles out as preserved. -/
theorem session_invariant_cex :
    dictGet cexSt2.online_peers "bbbb" =
      some { username := "bob", ip := "2.2.2.2", port := 200, pubkey := "BAD",
             last_seen := 1 } ∧
    parseK "BAD" = false ∧
    dictGet cexSt2.peer_boxes "bbbb" = some "GOOD" ∧
    ¬ sessionInvSpec parseK cexSt2 := by
  refine ⟨by decide, by decide, by decide, ?_⟩
  intro hinv
  obtain ⟨p, hp, hpp⟩ := (hinv "bbbb").mp (by decide)
  rw [show dictGet cexSt2.online_peers "bbbb" =
      some { username := "bob", ip := "2.2.2.2", port := 200, pubkey := "BAD",
             last_seen := 1 } from by decide] at hp
  injection hp with hp2
  subst hp2
  exact absurd hpp (by decide)

/-- C1 amended: at every reachable state (any input script of presence
datagrams, bootstrap ingestions, stale evictions, ciphertext datagrams
and sends applied to a fresh node), every cached Session belongs to a
peer present in the table and was built from a key that parses, and
every present peer whose currently stored key parses has a Session built
from exactly that key.  The original iff fails only in that a stale
Session may survive under a peer whose stored key no longer parses
(counterexample above). -/
theorem session_invariant_reachable (parse : String → Bool)
    (decrypt : String → List Nat → Option Inner) (uid un pk : String)
    (script : List Input) :
    sessionInv parse (runInputs parse decrypt (initState uid un pk) script) := by
  have base := sessionInv_init parse uid un pk
  revert base
  generalize initState uid un pk = st
  intro base
  induction script generalizing st with
  | nil => exact base
  | cons a rest ih =>
    exact ih (applyInput parse decrypt st a) (sessionInv_applyInput parse decrypt st a base)

/-! Claim C3: Self-filter machinery. -/

theorem selfInv_presence (uid : String) (parse : String → Bool) (now : Nat)
    (st : NodeState) (msg : PresenceMsg) (srcIp : String) (srcPort : Nat)
    (h : selfInv uid st) :
    selfInv uid (handle_presence_message parse now st msg srcIp srcPort).1 := by
  obtain ⟨huid, habs⟩ := h
  by_cases hself : msg.user_id = st.user_id
  · rw [handle_presence_self parse now st msg srcIp srcPort hself]
    exact ⟨huid, habs⟩
  · have hmu : msg.user_id ≠ uid := by
      rw [← huid]
      exact hself
    by_cases hon : msg.status = "online"
    · cases hget : dictGet st.online_peers msg.user_id with
      | none =>
        rw [handle_presence_online_absent parse now st msg srcIp srcPort hself hon hget]
        refine ⟨?_, ?_⟩
        · rw [presence_upsert_user_id]
          exact huid
        · rw [presence_upsert_peers, dictGet_set, if_neg hmu]
          exact habs
      | some p =>
        by_cases hne : p.ip ≠ srcIp ∨ p.port ≠ srcPort
        · rw [handle_presence_online_changed parse now st msg srcIp srcPort hself hon
            p hget hne]
          refine ⟨?_, ?_⟩
          · rw [presence_upsert_user_id]
            exact huid
          · rw [presence_upsert_peers, dictGet_set, if_neg hmu]
            exact habs
        · push_neg at hne
          rw [handle_presence_online_same parse now st msg srcIp srcPort hself hon
            p hget hne.1 hne.2]
          refine ⟨huid, ?_⟩
          rw [dictGet_set, if_neg hmu]
          exact habs
    · by_cases hoff : msg.status = "offline"
      · cases hget : dictGet st.online_peers msg.user_id with
        | some p =>
          rw [handle_presence_offline_present parse now st msg srcIp srcPort hself
            hoff p hget]
          refine ⟨huid, ?_⟩
          rw [dictGet_del, if_neg hmu]
          exact habs
        | none =>
          rw [handle_presence_offline_absent parse now st msg srcIp srcPort hself
            hoff hget]
          exact ⟨huid, habs⟩
      · rw [handle_presence_other parse now st msg srcIp srcPort hself hon hoff]
        exact ⟨huid, habs⟩

theorem selfInv_update_entry (uid : String) (parse : String → Bool) (now : Nat)
    (st : NodeState) (peer : BPeer) (h : selfInv uid st) :
    selfInv uid (update_peer_entry parse now st peer) := by
  obtain ⟨huid, habs⟩ := h
  rw [update_peer_entry_eq]
  by_cases hself : peer.user_id = st.user_id
  · rw [if_pos hself]
    exact ⟨huid, habs⟩
  · have hmu : peer.user_id ≠ uid := by
      rw [← huid]
      exact hself
    rw [if_neg hself]
    by_cases hp : parse peer.pubkey = true
    · rw [if_pos hp]
      exact ⟨huid, by rw [dictGet_set, if_neg hmu]; exact habs⟩
    · rw [if_neg hp]
      exact ⟨huid, by rw [dictGet_set, if_neg hmu]; exact habs⟩

theorem selfInv_update_list (uid : String) (parse : String → Bool) (now : Nat) :
    ∀ (l : List BPeer) (st : NodeState), selfInv uid st →
      selfInv uid (update_peer_list parse now st l) := by
  intro l
  induction l with
  | nil => intro st h; exact h
  | cons a rest ih =>
    intro st h
    exact ih (update_peer_entry parse now st a) (selfInv_update_entry uid parse now st a h)

theorem selfInv_del_both (uid : String) (st : NodeState) (a : String)
    (h : selfInv uid st) :
    selfInv uid { st with peer_boxes := dictDel st.peer_boxes a,
                          online_peers := dictDel st.online_peers a } := by
  refine ⟨h.1, ?_⟩
  rw [dictGet_del]
  by_cases hu : a = uid
  · rw [if_pos hu]
  · rw [if_neg hu]
    exact h.2

theorem selfInv_del_fold (uid : String) :
    ∀ (l : List String) (st : NodeState), selfInv uid st →
      selfInv uid (l.foldl (fun s u =>
        { s with peer_boxes := dictDel s.peer_boxes u,
                 online_peers := dictDel s.online_peers u }) st) := by
  intro l
  induction l with
  | nil => intro st h; exact h
  | cons a rest ih =>
    intro st h
    exact ih _ (selfInv_del_both uid st a h)

theorem selfInv_cleanup (uid : String) (now : Nat) (st : NodeState)
    (h : selfInv uid st) : selfInv uid (cleanup_peers now st) := by
  unfold cleanup_peers
  exact selfInv_del_fold uid _ st h

theorem selfInv_encrypted (uid : String) (decrypt : String → List Nat → Option Inner)
    (st : NodeState) (data : List Nat) (srcIp : String) (srcPort : Nat)
    (h : selfInv uid st) :
    selfInv uid (handle_encrypted_message decrypt st data srcIp srcPort).1 := by
  unfold handle_encrypted_message
  repeat' split
  all_goals exact h

theorem selfInv_send (uid : String) (now : Nat) (mid : String) (st : NodeState)
    (t c : String) (h : selfInv uid st) :
    selfInv uid (send_message now mid st t c).1 := by
  unfold send_message
  repeat' split
  all_goals exact h

theorem selfInv_applyInput (uid : String) (parse : String → Bool)
    (decrypt : String → List Nat → Option Inner) (st : NodeState) (inp : Input)
    (h : selfInv uid st) :
    selfInv uid (applyInput parse decrypt st inp) := by
  cases inp with
  | presenceIn now msg ip port => exact selfInv_presence uid parse now st msg ip port h
  | bootstrapIn now l => exact selfInv_update_list uid parse now l st h
  | cleanupIn now => exact selfInv_cleanup uid now st h
  | encryptedIn d ip port => exact selfInv_encrypted uid decrypt st d ip port h
  | sendIn now mid t c => exact selfInv_send uid now mid st t c h

/-- C3: for every input script — presence datagrams and bootstrap peer
lists (including ones carrying self's own user id), plus evictions,
ciphertext datagrams and sends — self's user id never appears as a key
of the peer table: the presence handler returns early on its own id and
`update_peer_list` filters it. -/
theorem self_filter (parse : String → Bool)
    (decrypt : String → List Nat → Option Inner) (uid un pk : String)
    (script : List Input) :
    dictContains (runInputs parse decrypt (initState uid un pk) script).online_peers
      uid = false := by
  have hinv : selfInv uid (runInputs parse decrypt (initState uid un pk) script) := by
    have base : selfInv uid (initState uid un pk) := ⟨rfl, rfl⟩
    revert base
    generalize initState uid un pk = st
    intro base
    induction script generalizing st with
    | nil => exact base
    | cons a rest ih =>
      exact ih (applyInput parse decrypt st a) (selfInv_applyInput uid parse decrypt st a base)
  rw [dictContains_eq_isSome, hinv.2]
  rfl

end WhisperNet
